import Mathlib

/-!
Verification development for the SDLC agent lifecycle-orchestration engine.

The definitions below are a shallow embedding of the Python sources:
- `src/core/state_machine.py` (issue state machine),
- `src/github/pr_manager.py` (PR CI-status predicates),
- `src/agents/reviewer_agent.py` (review parsing and decision fusion),
- `src/agents/agent_loop.py` (bounded tool-calling loop),
- `src/cli.py` (`run_cycle` review-and-fix loop).

Python `int` is modelled as `Int`, `str` as `String`, `None`-able values as
`Option`, `dict[str, Any]` payloads that are only carried around (never
inspected by the modelled code) as association lists of strings, and the
wall-clock timestamp produced by `datetime.now()` as a `Nat` supplied by the
caller.  Fallible calls (an LLM invocation that may raise) are modelled with
`Except`; an exception raised by a Python tool is an `Except.error` result of
the modelled tool function.
-/

namespace SDLC

/-- States in the Issue lifecycle (`IssueState` in `state_machine.py`). -/
inductive IssueState where
  | CREATED
  | ANALYZING
  | CONTEXT_BUILDING
  | GENERATING_CODE
  | COMMITTING
  | CREATING_PR
  | CI_RUNNING
  | CI_PASSED
  | CI_FAILED
  | REVIEWING
  | CHANGES_REQUESTED
  | APPROVED
  | MERGING
  | COMPLETED
  | FAILED
  | MAX_ITERATIONS_REACHED
deriving DecidableEq, Repr

open IssueState

/-- The static transition table `VALID_TRANSITIONS` of `state_machine.py`.
The Python dict covers every state, so it is a total function here. -/
def VALID_TRANSITIONS : IssueState → List IssueState
  | CREATED => [ANALYZING]
  | ANALYZING => [CONTEXT_BUILDING, FAILED]
  | CONTEXT_BUILDING => [GENERATING_CODE, FAILED]
  | GENERATING_CODE => [COMMITTING, FAILED]
  | COMMITTING => [CREATING_PR, FAILED]
  | CREATING_PR => [CI_RUNNING, FAILED]
  | CI_RUNNING => [CI_PASSED, CI_FAILED]
  | CI_PASSED => [REVIEWING]
  | CI_FAILED => [GENERATING_CODE, FAILED, MAX_ITERATIONS_REACHED]
  | REVIEWING => [APPROVED, CHANGES_REQUESTED, FAILED]
  | CHANGES_REQUESTED => [GENERATING_CODE, FAILED, MAX_ITERATIONS_REACHED]
  | APPROVED => [MERGING, COMPLETED]
  | MERGING => [COMPLETED, FAILED]
  | COMPLETED => []
  | FAILED => []
  | MAX_ITERATIONS_REACHED => []

/-- Record of a state transition (`StateTransition` dataclass).  The
`datetime` timestamp is a `Nat` tick; the free-form metadata dict is an
association list. -/
structure StateTransition where
  from_state : IssueState
  to_state : IssueState
  timestamp : Nat
  metadata : List (String × String)
deriving DecidableEq, Repr

/-- Context data for an issue being processed (`IssueContext` dataclass). -/
structure IssueContext where
  issue_number : Int
  issue_title : String
  issue_body : String
  pr_number : Option Int := none
  branch_name : Option String := none
  iteration : Int := 0
  metadata : List (String × String) := []
deriving DecidableEq, Repr

/-- The `IssueStateMachine` object state: constructor sets
`self._state = IssueState.CREATED` and `self._history = []`. -/
structure IssueStateMachine where
  context : IssueContext
  max_iterations : Int
  state : IssueState := CREATED
  history : List StateTransition := []
deriving DecidableEq, Repr

/-- `IssueStateMachine.can_transition_to`: membership of the requested state
in the current state's allowed-destination list. -/
def can_transition_to (m : IssueStateMachine) (new_state : IssueState) : Bool :=
  decide (new_state ∈ VALID_TRANSITIONS m.state)

/-- `IssueStateMachine.transition_to`.  Returns the Python boolean result
together with the updated machine.  `now` stands for `datetime.now()`.
Mirrors the source: an invalid request returns `False` leaving the machine
untouched; a valid request to `GENERATING_CODE` with `iteration > 0` and
`iteration >= max_iterations` is overridden to `MAX_ITERATIONS_REACHED`;
every applied transition appends a `StateTransition` to the history. -/
def transition_to (m : IssueStateMachine) (new_state : IssueState)
    (now : Nat) (metadata : List (String × String)) :
    Bool × IssueStateMachine :=
  if can_transition_to m new_state then
    let actual :=
      if new_state = GENERATING_CODE ∧ 0 < m.context.iteration ∧
          m.max_iterations ≤ m.context.iteration then
        MAX_ITERATIONS_REACHED
      else
        new_state
    (true,
      { m with
        state := actual
        history := m.history ++ [⟨m.state, actual, now, metadata⟩] })
  else
    (false, m)

/-- `IssueStateMachine.increment_iteration`. -/
def increment_iteration (m : IssueStateMachine) : Int × IssueStateMachine :=
  let m := { m with context := { m.context with iteration := m.context.iteration + 1 } }
  (m.context.iteration, m)

/-- `IssueStateMachine.is_terminal`. -/
def is_terminal (m : IssueStateMachine) : Bool :=
  decide (m.state ∈ [COMPLETED, FAILED, MAX_ITERATIONS_REACHED])

/-- A machine sitting in `CONTEXT_BUILDING` (which allows `GENERATING_CODE`)
with `iteration = 0` and `max_iterations = 0`: a concrete input for the C1
counterexample. -/
def machineAtZero : IssueStateMachine :=
  { context :=
      { issue_number := 1
        issue_title := "t"
        issue_body := "b" }
    max_iterations := 0
    state := CONTEXT_BUILDING }

/-! ### Substring containment

Python's `pat in content` test on strings, implemented directly on character
lists so that its characterisation can be proved without auxiliary theory. -/

/-- `startsWithList pat l` is true when `l` begins with `pat`. -/
def startsWithList : List Char → List Char → Bool
  | [], _ => true
  | _ :: _, [] => false
  | p :: ps, c :: cs => p == c && startsWithList ps cs

/-- `containsList pat hs` is true when `pat` occurs contiguously in `hs`
(Python `pat in hs`). -/
def containsList (pat : List Char) : List Char → Bool
  | [] => startsWithList pat []
  | c :: rest => startsWithList pat (c :: rest) || containsList pat rest

/-- Python's `pat in s` substring test. -/
def containsSub (s pat : String) : Bool :=
  containsList pat.toList s.toList

/-! ### CI checks and PR info (`src/github/client.py`, `src/github/pr_manager.py`) -/

/-- `CICheckResult` dataclass of `client.py`: the `output` dict
(summary/text/annotations), which the modelled code never inspects, is an
association list. -/
structure CICheckResult where
  name : String
  status : String
  conclusion : Option String
  url : Option String := none
  output : Option (List (String × String)) := none
deriving DecidableEq, Repr

/-- `PRInfo` dataclass of `pr_manager.py`.  The `files` list of dicts is a
list of association lists. -/
structure PRInfo where
  number : Int
  title : String
  body : String
  state : String
  head_branch : String
  base_branch : String
  mergeable : Option Bool
  url : String
  diff : String
  files : List (List (String × String))
  ci_status : List CICheckResult
deriving DecidableEq, Repr

/-- `PRInfo.ci_passed`: no checks counts as passed; otherwise every
*completed* check must have conclusion `success` (the generator filters on
`check.status == "completed"`). -/
def ci_passed (pr : PRInfo) : Bool :=
  if pr.ci_status.isEmpty then
    true
  else
    (pr.ci_status.filter (fun c => c.status == "completed")).all
      (fun c => c.conclusion == some "success")

/-- `PRInfo.ci_completed`: no checks counts as completed; otherwise every
check must have status `completed`. -/
def ci_completed (pr : PRInfo) : Bool :=
  if pr.ci_status.isEmpty then
    true
  else
    pr.ci_status.all (fun c => c.status == "completed")

/-- `PRInfo.failed_checks`: completed checks whose conclusion is not
`success`. -/
def failed_checks (pr : PRInfo) : List CICheckResult :=
  pr.ci_status.filter (fun c => c.status == "completed" && !(c.conclusion == some "success"))

/-! ### Review results (`src/agents/reviewer_agent.py`) -/

/-- `ReviewDecision` enum. -/
inductive ReviewDecision where
  | APPROVED
  | CHANGES_REQUESTED
  | COMMENT
deriving DecidableEq, Repr

/-- `ReviewIssue` dataclass. -/
structure ReviewIssue where
  severity : String
  description : String
  file : Option String := none
  line : Option Int := none
  suggestion : Option String := none
deriving DecidableEq, Repr

/-- `ReviewResult` dataclass. -/
structure ReviewResult where
  decision : ReviewDecision
  summary : String
  issues : List ReviewIssue
  positive_aspects : List String
  recommendations : List String
  raw_review : String
deriving DecidableEq, Repr

/-- `ReviewResult.has_critical_issues`. -/
def has_critical_issues (r : ReviewResult) : Bool :=
  r.issues.any (fun i => i.severity == "CRITICAL")

/-- The regex-driven extraction helpers of `ReviewerAgent`
(`_parse_issues`, the `## Summary` match, `## Positive Aspects` and
`## Recommendations` list extraction).  Their regex engines are modelled as
oracle functions; `_parse_review_response` below keeps the source's control
flow over their outputs.  `extract_summary` returns `none` when the summary
regex does not match (the source then keeps the default text). -/
structure ReviewExtractors where
  parse_issues : String → List ReviewIssue
  extract_summary : String → Option String
  extract_positive : String → List String
  extract_recommendations : String → List String

/-- `ReviewerAgent._parse_review_response`: decision from literal substring
tests on the raw content, then the two adjustments — `COMMENT` with no
parsed issues becomes `APPROVED`, and any `CRITICAL` issue forces
`CHANGES_REQUESTED`. -/
def parse_review_response (ex : ReviewExtractors) (content : String) : ReviewResult :=
  let decision :=
    if containsSub content "Status: APPROVED" || containsSub content "## Status: APPROVED" then
      ReviewDecision.APPROVED
    else if containsSub content "Status: CHANGES_REQUESTED" ||
        containsSub content "CHANGES_REQUESTED" then
      ReviewDecision.CHANGES_REQUESTED
    else
      ReviewDecision.COMMENT
  let summary := (ex.extract_summary content).getD "Review completed."
  let issues := ex.parse_issues content
  let positive := ex.extract_positive content
  let recommendations := ex.extract_recommendations content
  let decision :=
    if issues.isEmpty && decision == ReviewDecision.COMMENT then
      ReviewDecision.APPROVED
    else
      decision
  let decision :=
    if issues.any (fun i => i.severity == "CRITICAL") then
      ReviewDecision.CHANGES_REQUESTED
    else
      decision
  { decision := decision
    summary := summary
    issues := issues
    positive_aspects := positive
    recommendations := recommendations
    raw_review := content }

/-- The decision dict returned by `ReviewerAgent.check_and_decide`, reduced
to the fields the spec reasons about: the `action` string, the
`failed_checks` and `issues` evidence lists, and `reviewed`, which records
whether `review_pr` (the AI review) was invoked before returning (the
human-readable `reason`/`review_summary` strings are not modelled). -/
structure Decision where
  action : String
  reviewed : Bool
  failed_checks_out : List CICheckResult
  issues_out : List ReviewIssue
deriving DecidableEq, Repr

/-- `ReviewerAgent.check_and_decide`: if any CI check is still running,
return `wait` without reviewing; otherwise perform the review (`review` is
the `ReviewResult` that `review_pr` produces) and fuse the signals —
`fix_ci` when CI failed, else `request_fixes` when the review requested
changes, else `merge`. -/
def check_and_decide (pr : PRInfo) (review : ReviewResult) : Decision :=
  if !(ci_completed pr) then
    { action := "wait", reviewed := false, failed_checks_out := [], issues_out := [] }
  else
    let ci_failed := !(ci_passed pr)
    let review_has_issues := review.decision == ReviewDecision.CHANGES_REQUESTED
    let failed := if ci_failed then failed_checks pr else []
    let review_issues := review.issues
    if ci_failed || review_has_issues then
      { action := if ci_failed then "fix_ci" else "request_fixes"
        reviewed := true
        failed_checks_out := failed
        issues_out := review_issues }
    else
      { action := "merge", reviewed := true, failed_checks_out := [], issues_out := review_issues }

/-! ### The bounded tool-calling loop (`src/agents/agent_loop.py`) -/

/-- One requested tool invocation (`tool_call` dict: `name`, `args`, `id`).
The JSON `args` payload is carried as a string. -/
structure ToolCall where
  name : String
  args : String
  id : String
deriving DecidableEq, Repr

/-- A LangChain message: `SystemMessage`, `HumanMessage`, `AIMessage`
(content plus requested tool calls) or `ToolMessage`. -/
inductive Msg where
  | system (content : String)
  | human (content : String)
  | ai (content : String) (tool_calls : List ToolCall)
  | tool (content : String) (tool_call_id : String)
deriving DecidableEq, Repr

/-- A registered tool: `invoke` returns the textual result, or
`Except.error` when the Python invocation raises. -/
structure ToolDef where
  name : String
  invoke : String → Except String String

/-- `tools_by_name = {t.name: t for t in tools}` — a Python dict
comprehension in which a later duplicate name overwrites an earlier one,
hence the lookup scans the reversed list. -/
def tools_by_name (tools : List ToolDef) (n : String) : Option ToolDef :=
  tools.reverse.find? (fun t => t.name == n)

/-- The ASCII apostrophe used by the f-string quoting in the source. -/
def sq : String := String.singleton (Char.ofNat 39)

/-- The tool-dispatch step of `run_agent_loop`: an unknown tool name yields
the `Error: Unknown tool '...'` observation, an invocation that raises
yields `Error executing ...`, and a normal result is passed through. -/
def exec_tool_call (tools : List ToolDef) (tc : ToolCall) : String :=
  match tools_by_name tools tc.name with
  | none => "Error: Unknown tool " ++ sq ++ tc.name ++ sq
  | some t =>
    match t.invoke tc.args with
    | Except.ok r => r
    | Except.error e => "Error executing " ++ tc.name ++ ": " ++ e

/-- The LLM collaborator: `llm_with_tools.invoke(messages)` returns a
response (content and requested tool calls) or raises. -/
abbrev LLM : Type := List Msg → Except String (String × List ToolCall)

/-- The fixed result string returned when the iteration cap is reached. -/
def incomplete_result : String :=
  "Agent reached maximum iterations without completing the task."

/-- The `while iteration < max_iterations` loop of `run_agent_loop`, with
the remaining iteration count as fuel.  Each round calls the LLM (a failure
there propagates), appends the `AIMessage`, returns its content when no
tool calls were requested, and otherwise appends one `ToolMessage` per
requested call and continues.  Exhausted fuel returns the fixed incomplete
result.  The result also carries the final message transcript. -/
def run_agent_loop_aux (llm : LLM) (tools : List ToolDef) :
    List Msg → Nat → Except String (List Msg × String)
  | messages, 0 => Except.ok (messages, incomplete_result)
  | messages, fuel + 1 =>
    match llm messages with
    | Except.error e => Except.error e
    | Except.ok (content, tool_calls) =>
      let messages := messages ++ [Msg.ai content tool_calls]
      if tool_calls.isEmpty then
        Except.ok (messages, content)
      else
        let messages :=
          messages ++ tool_calls.map (fun tc => Msg.tool (exec_tool_call tools tc) tc.id)
        run_agent_loop_aux llm tools messages fuel

/-- `run_agent_loop(llm, tools, system_prompt, user_message, max_iterations)`. -/
def run_agent_loop (llm : LLM) (tools : List ToolDef)
    (system_prompt user_message : String) (max_iterations : Nat) :
    Except String (List Msg × String) :=
  run_agent_loop_aux llm tools [Msg.system system_prompt, Msg.human user_message] max_iterations

/-- Modelled from the spec: the continuation-capable Agent Session (§3,
§4.2) — message history, `finished` flag, completion message, and the
best-effort side artifacts.  The continuation-capable loop variant that
threads it (the `CodeAgent.state` / `continue_with_feedback` interface that
`cli.py` invokes) is not present under `src/`; only this simpler
`run_agent_loop` is. -/
structure AgentSession where
  messages : List Msg
  finished : Bool
  completion_message : Option String := none
  branch_name : Option String := none
  pr_number : Option Int := none
  pr_url : Option String := none
deriving DecidableEq, Repr

/-- Modelled from the spec (§4.2): the session-threading variant of the
tool-calling loop, absent from `src/`.  Per the spec: a final answer (no
tool calls) returns that text leaving `finished` as previously set; after
dispatching a batch, the completion-signal `observer` is consulted — if it
yields a summary the loop sets `finished := true`, records the summary and
returns it; if the iteration cap is reached the loop returns the fixed
incomplete result and `finished` remains unchanged. -/
def run_session_loop_aux (llm : LLM) (tools : List ToolDef)
    (observer : List ToolCall → Option String) :
    AgentSession → Nat → Except String (AgentSession × String)
  | s, 0 => Except.ok (s, incomplete_result)
  | s, fuel + 1 =>
    match llm s.messages with
    | Except.error e => Except.error e
    | Except.ok (content, tool_calls) =>
      let s := { s with messages := s.messages ++ [Msg.ai content tool_calls] }
      if tool_calls.isEmpty then
        Except.ok (s, content)
      else
        let s :=
          { s with
            messages :=
              s.messages ++ tool_calls.map (fun tc => Msg.tool (exec_tool_call tools tc) tc.id) }
        match observer tool_calls with
        | some summary =>
          Except.ok ({ s with finished := true, completion_message := some summary }, summary)
        | none => run_session_loop_aux llm tools observer s fuel

/-! ### The Cycle Controller's review-and-fix loop (`run_cycle` in `src/cli.py`) -/

/-- The action recommended by one `check_and_decide` round, as dispatched by
the `run_cycle` fix loop. -/
inductive CycleAction where
  | merge
  | wait
  | fix_ci
  | request_fixes
deriving DecidableEq, Repr

/-- Outcome of the `run_cycle` fix loop: whether it broke out on `merge`,
the final value of its `iteration` counter, and how many fix attempts
(`continue_with_feedback` invocations) it performed. -/
structure FixLoopResult where
  merged : Bool
  rounds_used : Nat
  fix_attempts : Nat
deriving DecidableEq, Repr

/-- The `while iteration < max_iterations` fix loop of `run_cycle`, with
`remaining = max_iterations - iteration` as fuel so the `while` guard is
the fuel pattern.  Each round increments `iteration`, then dispatches on
the decision of that round (`decide` is indexed by the incremented
1-based `iteration`, the value the source displays): `merge` breaks out,
`wait` continues, `fix_ci`/`request_fixes` invoke the agent once
(counted in `fix_attempts`) and continue. -/
def run_fix_loop_aux (decide : Nat → CycleAction) :
    Nat → Nat → Nat → FixLoopResult
  | 0, iteration, fixes => ⟨false, iteration, fixes⟩
  | remaining + 1, iteration, fixes =>
    match decide (iteration + 1) with
    | CycleAction.merge => ⟨true, iteration + 1, fixes⟩
    | CycleAction.wait => run_fix_loop_aux decide remaining (iteration + 1) fixes
    | CycleAction.fix_ci => run_fix_loop_aux decide remaining (iteration + 1) (fixes + 1)
    | CycleAction.request_fixes => run_fix_loop_aux decide remaining (iteration + 1) (fixes + 1)

/-- The fix loop of `run_cycle`, started with `iteration = 0`. -/
def run_fix_loop (decide : Nat → CycleAction) (max_iterations : Nat) : FixLoopResult :=
  run_fix_loop_aux decide max_iterations 0 0

/-- Claim-mirroring definition (for the refinement comparison of C8 only):
the fix loop as the claim describes it, where a `wait` round does *not*
count against the `max_iterations` budget — only non-`wait` rounds
decrement the remaining budget.  Rounds are numbered globally by `round`;
since this loop need not terminate (an unbounded run of `wait`s), `fuel`
bounds the modelled rounds and `none` means the bound was hit. -/
def claim_fix_loop_aux (decide : Nat → CycleAction) (max_iterations : Nat) :
    Nat → Nat → Nat → Nat → Option FixLoopResult
  | 0, _, _, _ => none
  | fuel + 1, round, iteration, fixes =>
    if iteration < max_iterations then
      match decide (round + 1) with
      | CycleAction.merge => some ⟨true, round + 1, fixes⟩
      | CycleAction.wait => claim_fix_loop_aux decide max_iterations fuel (round + 1) iteration fixes
      | CycleAction.fix_ci =>
        claim_fix_loop_aux decide max_iterations fuel (round + 1) (iteration + 1) (fixes + 1)
      | CycleAction.request_fixes =>
        claim_fix_loop_aux decide max_iterations fuel (round + 1) (iteration + 1) (fixes + 1)
    else
      some ⟨false, round, fixes⟩

/-- Claim-mirroring fix loop started at round 0, iteration 0. -/
def claim_fix_loop (decide : Nat → CycleAction) (max_iterations fuel : Nat) :
    Option FixLoopResult :=
  claim_fix_loop_aux decide max_iterations fuel 0 0 0

/-- Decision schedule for the C8 counterexample: the first round's decision
is `wait`, every later round's is `merge`. -/
def waitThenMerge : Nat → CycleAction :=
  fun n => if n == 1 then CycleAction.wait else CycleAction.merge

/-- A machine in the retry cycle (`CI_FAILED`, from which `GENERATING_CODE`
is allowed) with `iteration = 1` at `max_iterations = 1`: concrete witness
input for the override rule. -/
def machineRetry : IssueStateMachine :=
  { context :=
      { issue_number := 7
        issue_title := "t"
        issue_body := "b"
        iteration := 1 }
    max_iterations := 1
    state := CI_FAILED }

/-- A CI check still in progress. -/
def checkRunning : CICheckResult :=
  { name := "tests", status := "in_progress", conclusion := none }

/-- A CI check completed successfully. -/
def checkSuccess : CICheckResult :=
  { name := "tests", status := "completed", conclusion := some "success" }

/-- A CI check completed with a failure conclusion. -/
def checkFailure : CICheckResult :=
  { name := "lint", status := "completed", conclusion := some "failure" }

/-- A concrete `PRInfo` carrying the given CI-check list. -/
def mkPR (cs : List CICheckResult) : PRInfo :=
  { number := 3
    title := "t"
    body := "b"
    state := "open"
    head_branch := "issue-7-t"
    base_branch := "main"
    mergeable := some true
    url := "u"
    diff := "d"
    files := []
    ci_status := cs }

/-- PR with no CI checks. -/
def prNone : PRInfo := mkPR []

/-- PR with one check still running. -/
def prRunning : PRInfo := mkPR [checkRunning]

/-- PR with all checks completed successfully. -/
def prSuccess : PRInfo := mkPR [checkSuccess]

/-- PR with a completed success and a completed failure. -/
def prFailed : PRInfo := mkPR [checkSuccess, checkFailure]

/-- An approving review with no issues. -/
def reviewApproved : ReviewResult :=
  { decision := ReviewDecision.APPROVED
    summary := "ok"
    issues := []
    positive_aspects := []
    recommendations := []
    raw_review := "raw" }

/-- A changes-requested review. -/
def reviewChanges : ReviewResult :=
  { decision := ReviewDecision.CHANGES_REQUESTED
    summary := "bad"
    issues := [{ severity := "MAJOR", description := "d" }]
    positive_aspects := []
    recommendations := []
    raw_review := "raw" }

/-- Extractor oracles that parse one `CRITICAL` finding out of any text. -/
def exCritical : ReviewExtractors :=
  { parse_issues := fun _ => [{ severity := "CRITICAL", description := "bug" }]
    extract_summary := fun _ => none
    extract_positive := fun _ => []
    extract_recommendations := fun _ => [] }

/-- Extractor oracles that parse nothing out of any text. -/
def exEmpty : ReviewExtractors :=
  { parse_issues := fun _ => []
    extract_summary := fun _ => none
    extract_positive := fun _ => []
    extract_recommendations := fun _ => [] }

/-- A registered tool that succeeds. -/
def toolEcho : ToolDef :=
  { name := "echo", invoke := fun a => Except.ok ("echoed " ++ a) }

/-- A registered tool whose invocation raises. -/
def toolBoom : ToolDef :=
  { name := "boom", invoke := fun _ => Except.error "boom failed" }

/-- A small tool registry. -/
def demoTools : List ToolDef := [toolEcho, toolBoom]

/-- A tool call naming a tool that is not registered. -/
def ghostCall : ToolCall := { name := "ghost", args := "{}", id := "call-1" }

/-- An LLM stub that requests the unknown `ghost` tool on every round. -/
def llmAlwaysCalls : LLM := fun _ => Except.ok ("thinking", [ghostCall])

/-- A fresh, unfinished session. -/
def sessionFresh : AgentSession := { messages := [], finished := false }

/-- A completion-signal observer that never fires. -/
def obsNever : List ToolCall → Option String := fun _ => none

/-!
## Theorems

Each claim of the specification is settled by exactly one theorem below;
shared helper lemmas precede them.
-/

/-- `startsWithList pat l` holds exactly when `l` starts with `pat`. -/
theorem startsWithList_iff (pat : List Char) :
    ∀ l, startsWithList pat l = true ↔ ∃ t, l = pat ++ t := by
  induction pat with
  | nil =>
    intro l
    simp [startsWithList]
  | cons p ps ih =>
    intro l
    cases l with
    | nil =>
      simp [startsWithList]
    | cons c cs =>
      simp only [startsWithList, Bool.and_eq_true, beq_iff_eq, ih cs, List.cons_append,
        List.cons.injEq]
      constructor
      · rintro ⟨rfl, t, rfl⟩
        exact ⟨t, rfl, rfl⟩
      · rintro ⟨t, rfl, rfl⟩
        exact ⟨rfl, t, rfl⟩

/-- `containsList pat hs` holds exactly when `pat` occurs contiguously in
`hs`. -/
theorem containsList_iff (pat : List Char) :
    ∀ hs, containsList pat hs = true ↔ ∃ s t, hs = s ++ pat ++ t := by
  intro hs
  induction hs with
  | nil =>
    simp only [containsList, startsWithList_iff]
    constructor
    · rintro ⟨t, ht⟩
      exact ⟨[], t, by simpa using ht⟩
    · rintro ⟨s, t, hst⟩
      rcases List.append_eq_nil.mp hst.symm with ⟨h1, h2⟩
      rcases List.append_eq_nil.mp h1 with ⟨rfl, rfl⟩
      exact ⟨[], by simp⟩
  | cons c rest ih =>
    simp only [containsList, Bool.or_eq_true, startsWithList_iff, ih]
    constructor
    · rintro (⟨t, ht⟩ | ⟨s, t, hst⟩)
      · exact ⟨[], t, by simpa using ht⟩
      · exact ⟨c :: s, t, by simp [hst]⟩
    · rintro ⟨s, t, hst⟩
      cases s with
      | nil =>
        exact Or.inl ⟨t, by simpa using hst⟩
      | cons a s =>
        rw [List.cons_append, List.cons_append, List.cons.injEq] at hst
        exact Or.inr ⟨s, t, by simp [hst.2]⟩

/-- Occurrence of a longer pattern forces occurrence of any contiguous part
of it: used to reduce the source's redundant substring tests. -/
theorem containsList_of_extend (a pat b hs : List Char)
    (h : containsList (a ++ pat ++ b) hs = true) : containsList pat hs = true := by
  rcases (containsList_iff _ hs).mp h with ⟨s, t, hst⟩
  exact (containsList_iff pat hs).mpr ⟨s ++ a, b ++ t, by simp [hst]⟩

/-- Claim C1, counterexample: from `CONTEXT_BUILDING` (which allows
`GENERATING_CODE`) with `iteration = 0` and `max_iterations = 0`, the guard
`iteration > 0` in `transition_to` does not fire although
`iteration >= max_iterations`, so the machine lands exactly on
`GENERATING_CODE`, not on `MAX_ITERATIONS_REACHED`. -/
theorem transition_genCode_at_cap_cex :
    can_transition_to machineAtZero IssueState.GENERATING_CODE = true ∧
    machineAtZero.max_iterations ≤ machineAtZero.context.iteration ∧
    (transition_to machineAtZero IssueState.GENERATING_CODE 0 []).2.state =
      IssueState.GENERATING_CODE ∧
    (transition_to machineAtZero IssueState.GENERATING_CODE 0 []).2.state ≠
      IssueState.MAX_ITERATIONS_REACHED := by
  decide

/-- Claim C1 (amended: additionally `context.iteration > 0`, as the code's
guard and the spec's special rule require): from every state allowing
`GENERATING_CODE`, a `transition_to GENERATING_CODE` with
`0 < iteration` and `iteration >= max_iterations` succeeds and lands on
`MAX_ITERATIONS_REACHED`, never on `GENERATING_CODE`. -/
theorem transition_genCode_at_cap_overridden (m : IssueStateMachine)
    (h1 : can_transition_to m IssueState.GENERATING_CODE = true)
    (h2 : 0 < m.context.iteration)
    (h3 : m.max_iterations ≤ m.context.iteration)
    (now : Nat) (md : List (String × String)) :
    (transition_to m IssueState.GENERATING_CODE now md).1 = true ∧
    (transition_to m IssueState.GENERATING_CODE now md).2.state =
      IssueState.MAX_ITERATIONS_REACHED ∧
    (transition_to m IssueState.GENERATING_CODE now md).2.state ≠
      IssueState.GENERATING_CODE := by
  unfold transition_to
  rw [h1]
  rw [if_pos rfl, if_pos ⟨rfl, h2, h3⟩]
  exact ⟨rfl, rfl, by simp⟩

/-- Witness for `transition_genCode_at_cap_overridden` at `machineRetry`
(`CI_FAILED`, `iteration = 1`, `max_iterations = 1`). -/
theorem transition_genCode_at_cap_overridden_witness :
    (transition_to machineRetry IssueState.GENERATING_CODE 0 []).1 = true ∧
    (transition_to machineRetry IssueState.GENERATING_CODE 0 []).2.state =
      IssueState.MAX_ITERATIONS_REACHED ∧
    (transition_to machineRetry IssueState.GENERATING_CODE 0 []).2.state ≠
      IssueState.GENERATING_CODE :=
  transition_genCode_at_cap_overridden machineRetry (by decide) (by decide) (by decide) 0 []

/-- Claim C2: a requested target outside the current state's
allowed-destination list makes `transition_to` return `False`, leaves the
state unchanged and appends nothing to the history; moreover a machine in a
terminal state rejects every target, the three terminal states having empty
allowed lists. -/
theorem invalid_transition_rejected (m : IssueStateMachine) (t : IssueState)
    (h : can_transition_to m t = false) (now : Nat) (md : List (String × String)) :
    (transition_to m t now md).1 = false ∧
    (transition_to m t now md).2.state = m.state ∧
    (transition_to m t now md).2.history = m.history ∧
    (is_terminal m = true → ∀ t2 : IssueState, can_transition_to m t2 = false) ∧
    VALID_TRANSITIONS IssueState.COMPLETED = [] ∧
    VALID_TRANSITIONS IssueState.FAILED = [] ∧
    VALID_TRANSITIONS IssueState.MAX_ITERATIONS_REACHED = [] := by
  unfold transition_to
  rw [h]
  refine ⟨rfl, rfl, rfl, ?_, rfl, rfl, rfl⟩
  intro hterm t2
  unfold is_terminal at hterm
  unfold can_transition_to
  simp only [List.mem_cons, List.not_mem_nil, or_false, decide_eq_true_eq] at hterm
  rcases hterm with hs | hs | hs <;> rw [hs] <;> simp [VALID_TRANSITIONS]

/-- Witness for `invalid_transition_rejected`: `CONTEXT_BUILDING` does not
allow `COMPLETED`. -/
theorem invalid_transition_rejected_witness :
    (transition_to machineAtZero IssueState.COMPLETED 0 []).1 = false ∧
    (transition_to machineAtZero IssueState.COMPLETED 0 []).2.state = machineAtZero.state ∧
    (transition_to machineAtZero IssueState.COMPLETED 0 []).2.history = machineAtZero.history ∧
    (is_terminal machineAtZero = true →
      ∀ t2 : IssueState, can_transition_to machineAtZero t2 = false) ∧
    VALID_TRANSITIONS IssueState.COMPLETED = [] ∧
    VALID_TRANSITIONS IssueState.FAILED = [] ∧
    VALID_TRANSITIONS IssueState.MAX_ITERATIONS_REACHED = [] :=
  invalid_transition_rejected machineAtZero IssueState.COMPLETED (by decide) 0 []

/-- A CI list with an unfinished check is not `ci_completed`. -/
theorem ci_completed_eq_false (pr : PRInfo) (c : CICheckResult)
    (hc : c ∈ pr.ci_status) (hs : c.status ≠ "completed") :
    ci_completed pr = false := by
  unfold ci_completed
  rw [if_neg (by simp [List.isEmpty_iff]; exact List.ne_nil_of_mem hc)]
  apply Bool.eq_false_iff.mpr
  intro hall
  exact hs (by simpa using List.all_eq_true.mp hall c hc)

/-- A CI list whose checks are all completed is `ci_completed`. -/
theorem ci_completed_eq_true (pr : PRInfo)
    (h : ∀ c ∈ pr.ci_status, c.status = "completed") :
    ci_completed pr = true := by
  unfold ci_completed
  split
  · rfl
  · exact List.all_eq_true.mpr fun c hc => by simpa using h c hc

/-- A CI list whose checks all concluded `success` is `ci_passed`. -/
theorem ci_passed_eq_true (pr : PRInfo)
    (h : ∀ c ∈ pr.ci_status, c.conclusion = some "success") :
    ci_passed pr = true := by
  unfold ci_passed
  split
  · rfl
  · exact List.all_eq_true.mpr fun c hc => by
      simpa using h c (List.mem_of_mem_filter hc)

/-- A completed check without a `success` conclusion makes `ci_passed`
false. -/
theorem ci_passed_eq_false (pr : PRInfo) (c : CICheckResult)
    (hc : c ∈ pr.ci_status) (hcomp : c.status = "completed")
    (hf : c.conclusion ≠ some "success") :
    ci_passed pr = false := by
  unfold ci_passed
  rw [if_neg (by simp [List.isEmpty_iff]; exact List.ne_nil_of_mem hc)]
  apply Bool.eq_false_iff.mpr
  intro hall
  have hmem : c ∈ pr.ci_status.filter (fun c => c.status == "completed") :=
    List.mem_filter.mpr ⟨hc, by simpa using hcomp⟩
  exact hf (by simpa using List.all_eq_true.mp hall c hmem)

/-- Claim C3: a PR with any CI check whose status is not `completed` makes
`check_and_decide` return `wait`, for every review result, and the AI
review is not performed before returning. -/
theorem incomplete_ci_forces_wait (pr : PRInfo) (c : CICheckResult)
    (hc : c ∈ pr.ci_status) (hs : c.status ≠ "completed")
    (review : ReviewResult) :
    (check_and_decide pr review).action = "wait" ∧
    (check_and_decide pr review).reviewed = false := by
  unfold check_and_decide
  rw [ci_completed_eq_false pr c hc hs]
  exact ⟨rfl, rfl⟩

/-- Witness for `incomplete_ci_forces_wait` on a PR with one running check
and a changes-requested review. -/
theorem incomplete_ci_forces_wait_witness :
    (check_and_decide prRunning reviewChanges).action = "wait" ∧
    (check_and_decide prRunning reviewChanges).reviewed = false :=
  incomplete_ci_forces_wait prRunning checkRunning (by decide) (by decide) reviewChanges

/-- Claim C4: a `CRITICAL` parsed finding forces the effective review
decision to `CHANGES_REQUESTED` whatever the raw text said, and with every
CI check completed with conclusion `success` the fused action is
`request_fixes`, never `merge`. -/
theorem critical_issue_forces_request_fixes (ex : ReviewExtractors)
    (content : String) (pr : PRInfo)
    (hcrit : (ex.parse_issues content).any (fun i => i.severity == "CRITICAL") = true)
    (hci : ∀ c ∈ pr.ci_status, c.status = "completed" ∧ c.conclusion = some "success") :
    (parse_review_response ex content).decision = ReviewDecision.CHANGES_REQUESTED ∧
    (check_and_decide pr (parse_review_response ex content)).action = "request_fixes" ∧
    (check_and_decide pr (parse_review_response ex content)).action ≠ "merge" := by
  have hdec : (parse_review_response ex content).decision = ReviewDecision.CHANGES_REQUESTED := by
    unfold parse_review_response
    simp only [hcrit, if_true]
  refine ⟨hdec, ?_⟩
  unfold check_and_decide
  rw [ci_completed_eq_true pr fun c hc => (hci c hc).1,
    ci_passed_eq_true pr fun c hc => (hci c hc).2, hdec]
  exact ⟨rfl, by simp⟩

/-- Witness for `critical_issue_forces_request_fixes`: oracles that parse a
`CRITICAL` finding, text `"raw"`, and a PR whose only check succeeded. -/
theorem critical_issue_forces_request_fixes_witness :
    (parse_review_response exCritical "raw").decision = ReviewDecision.CHANGES_REQUESTED ∧
    (check_and_decide prSuccess (parse_review_response exCritical "raw")).action =
      "request_fixes" ∧
    (check_and_decide prSuccess (parse_review_response exCritical "raw")).action ≠ "merge" :=
  critical_issue_forces_request_fixes exCritical "raw" prSuccess (by decide) (by decide)

/-- Claim C5: with every CI check completed, one non-`success` conclusion
forces `fix_ci` for every review result (in particular an approving one);
and with every conclusion `success` and a review decision other than
`CHANGES_REQUESTED`, the action is `merge`. -/
theorem ci_priority_decision (pr : PRInfo)
    (hcomp : ∀ c ∈ pr.ci_status, c.status = "completed") :
    (∀ c ∈ pr.ci_status, c.conclusion ≠ some "success" →
      ∀ review : ReviewResult, (check_and_decide pr review).action = "fix_ci") ∧
    ((∀ c ∈ pr.ci_status, c.conclusion = some "success") →
      ∀ review : ReviewResult, review.decision ≠ ReviewDecision.CHANGES_REQUESTED →
        (check_and_decide pr review).action = "merge") := by
  constructor
  · intro c hc hf review
    unfold check_and_decide
    rw [ci_completed_eq_true pr hcomp, ci_passed_eq_false pr c hc (hcomp c hc) hf]
    rfl
  · intro hsucc review hdec
    unfold check_and_decide
    rw [ci_completed_eq_true pr hcomp, ci_passed_eq_true pr hsucc]
    have hbeq : (review.decision == ReviewDecision.CHANGES_REQUESTED) = false := by
      simpa using hdec
    rw [hbeq]
    rfl

/-- Witness for `ci_priority_decision`, applying it on a PR with a failed
check and an approving review (`fix_ci`), and on a PR with all checks
green and an approving review (`merge`). -/
theorem ci_priority_decision_witness :
    (check_and_decide prFailed reviewApproved).action = "fix_ci" ∧
    (check_and_decide prSuccess reviewApproved).action = "merge" :=
  ⟨(ci_priority_decision prFailed (by decide)).1 checkFailure (by decide) (by decide)
      reviewApproved,
    (ci_priority_decision prSuccess (by decide)).2 (by decide) reviewApproved (by decide)⟩

/-- Claim C9: raw review text with no parsed issues and neither a
`Status: APPROVED` marker nor the substring `CHANGES_REQUESTED` yields
decision `APPROVED` (not `COMMENT`); consequently, with CI fully green,
`check_and_decide` returns `merge` on such an unmatched review. -/
theorem unmatched_review_text_approved (ex : ReviewExtractors)
    (content : String) (pr : PRInfo)
    (hissues : ex.parse_issues content = [])
    (hna : containsSub content "Status: APPROVED" = false)
    (hnc : containsSub content "CHANGES_REQUESTED" = false)
    (hci : ∀ c ∈ pr.ci_status, c.status = "completed" ∧ c.conclusion = some "success") :
    (parse_review_response ex content).decision = ReviewDecision.APPROVED ∧
    (check_and_decide pr (parse_review_response ex content)).action = "merge" := by
  have hna2 : containsSub content "## Status: APPROVED" = false := by
    apply Bool.eq_false_iff.mpr
    intro hcon
    apply Bool.eq_false_iff.mp hna
    unfold containsSub at hcon ⊢
    have heq : ("## Status: APPROVED").toList =
        ("## ").toList ++ ("Status: APPROVED").toList ++ [] := by decide
    rw [heq] at hcon
    exact containsList_of_extend _ _ _ _ hcon
  have hnc2 : containsSub content "Status: CHANGES_REQUESTED" = false := by
    apply Bool.eq_false_iff.mpr
    intro hcon
    apply Bool.eq_false_iff.mp hnc
    unfold containsSub at hcon ⊢
    have heq : ("Status: CHANGES_REQUESTED").toList =
        ("Status: ").toList ++ ("CHANGES_REQUESTED").toList ++ [] := by decide
    rw [heq] at hcon
    exact containsList_of_extend _ _ _ _ hcon
  have hdec : (parse_review_response ex content).decision = ReviewDecision.APPROVED := by
    unfold parse_review_response
    simp only [hna, hna2, hnc, hnc2, hissues, Bool.or_false, Bool.false_or, if_false,
      Bool.false_eq_true, List.isEmpty_nil, List.any_nil, Bool.and_self, if_true]
    rfl
  refine ⟨hdec, ?_⟩
  unfold check_and_decide
  rw [ci_completed_eq_true pr fun c hc => (hci c hc).1,
    ci_passed_eq_true pr fun c hc => (hci c hc).2, hdec]
  rfl

/-- Witness for `unmatched_review_text_approved`: empty-parse oracles, the
text `"gibberish"`, and a PR with no CI checks. -/
theorem unmatched_review_text_approved_witness :
    (parse_review_response exEmpty "gibberish").decision = ReviewDecision.APPROVED ∧
    (check_and_decide prNone (parse_review_response exEmpty "gibberish")).action = "merge" :=
  unmatched_review_text_approved exEmpty "gibberish" prNone (by decide) (by decide)
    (by decide) (by decide)

/-- Claim C10: a PR with an empty CI-check list counts as completed and
passed, `check_and_decide` never returns `wait` for it, and it returns
`merge` whenever the effective review decision is not
`CHANGES_REQUESTED`. -/
theorem empty_ci_list_decision (pr : PRInfo) (h : pr.ci_status = []) :
    ci_completed pr = true ∧
    ci_passed pr = true ∧
    (∀ review : ReviewResult, (check_and_decide pr review).action ≠ "wait") ∧
    (∀ review : ReviewResult, review.decision ≠ ReviewDecision.CHANGES_REQUESTED →
      (check_and_decide pr review).action = "merge") := by
  have hcomp : ci_completed pr = true := by unfold ci_completed; rw [h]; rfl
  have hpass : ci_passed pr = true := by unfold ci_passed; rw [h]; rfl
  refine ⟨hcomp, hpass, ?_, ?_⟩
  · intro review
    unfold check_and_decide
    rw [hcomp, hpass]
    cases hrd : review.decision == ReviewDecision.CHANGES_REQUESTED <;> simp [hrd]
  · intro review hdec
    unfold check_and_decide
    rw [hcomp, hpass]
    have hbeq : (review.decision == ReviewDecision.CHANGES_REQUESTED) = false := by
      simpa using hdec
    rw [hbeq]
    rfl

/-- Witness for `empty_ci_list_decision` on the no-checks PR with an
approving review. -/
theorem empty_ci_list_decision_witness :
    ci_completed prNone = true ∧
    (check_and_decide prNone reviewChanges).action ≠ "wait" ∧
    (check_and_decide prNone reviewApproved).action = "merge" :=
  ⟨(empty_ci_list_decision prNone (by decide)).1,
    (empty_ci_list_decision prNone (by decide)).2.2.1 reviewChanges,
    (empty_ci_list_decision prNone (by decide)).2.2.2 reviewApproved (by decide)⟩

/-- The agent loop only ever appends to the message transcript: anything in
the history when a round starts is in the returned transcript. -/
theorem run_agent_loop_aux_mem (llm : LLM) (tools : List ToolDef) :
    ∀ (fuel : Nat) (messages out : List Msg) (r : String) (x : Msg),
      run_agent_loop_aux llm tools messages fuel = Except.ok (out, r) →
      x ∈ messages → x ∈ out := by
  intro fuel
  induction fuel with
  | zero =>
    intro messages out r x h hx
    simp only [run_agent_loop_aux, Except.ok.injEq, Prod.mk.injEq] at h
    rw [← h.1]
    exact hx
  | succ fuel ih =>
    intro messages out r x h hx
    simp only [run_agent_loop_aux] at h
    cases hllm : llm messages with
    | error e =>
      rw [hllm] at h
      simp at h
    | ok p =>
      obtain ⟨content, calls⟩ := p
      simp only [hllm] at h
      cases hempty : calls.isEmpty with
      | true =>
        rw [hempty] at h
        simp only [if_true, Except.ok.injEq, Prod.mk.injEq] at h
        rw [← h.1]
        exact List.mem_append_left _ hx
      | false =>
        rw [hempty] at h
        simp only [Bool.false_eq_true, if_false] at h
        exact ih _ _ _ x h (List.mem_append_left _ (List.mem_append_left _ hx))

/-- When every LLM call returns (does not raise), the agent loop returns. -/
theorem run_agent_loop_aux_ok (llm : LLM) (tools : List ToolDef)
    (hllm : ∀ ms, ∃ r, llm ms = Except.ok r) :
    ∀ (fuel : Nat) (messages : List Msg),
      ∃ out, run_agent_loop_aux llm tools messages fuel = Except.ok out := by
  intro fuel
  induction fuel with
  | zero =>
    intro messages
    exact ⟨(messages, incomplete_result), rfl⟩
  | succ fuel ih =>
    intro messages
    obtain ⟨⟨content, calls⟩, hms⟩ := hllm messages
    simp only [run_agent_loop_aux, hms]
    cases hempty : calls.isEmpty with
    | true => exact ⟨_, if_pos rfl⟩
    | false =>
      rw [if_neg (by simp)]
      exact ih _

/-- Claim C6: with an LLM that answers every round, the agent loop never
propagates a tool-dispatch fault — it always returns a value; an unknown
tool name produces the `Error: Unknown tool '...'` observation and a tool
invocation that raises produces `Error executing ...: ...`; and the
observation for a requested call of the first round is carried in the
returned transcript exactly like a genuine tool result, the loop having
proceeded. -/
theorem agent_loop_tool_errors_contained (llm : LLM) (tools : List ToolDef)
    (sp um : String) (n : Nat)
    (hllm : ∀ ms, ∃ r, llm ms = Except.ok r) :
    (∃ out, run_agent_loop llm tools sp um n = Except.ok out) ∧
    (∀ tc : ToolCall, tools_by_name tools tc.name = none →
      exec_tool_call tools tc = "Error: Unknown tool " ++ sq ++ tc.name ++ sq) ∧
    (∀ (tc : ToolCall) (t : ToolDef) (e : String),
      tools_by_name tools tc.name = some t → t.invoke tc.args = Except.error e →
      exec_tool_call tools tc = "Error executing " ++ tc.name ++ ": " ++ e) ∧
    (∀ (content : String) (calls : List ToolCall) (tc : ToolCall)
        (out : List Msg × String),
      llm [Msg.system sp, Msg.human um] = Except.ok (content, calls) →
      tc ∈ calls → 1 ≤ n →
      run_agent_loop llm tools sp um n = Except.ok out →
      Msg.tool (exec_tool_call tools tc) tc.id ∈ out.1) := by
  refine ⟨run_agent_loop_aux_ok llm tools hllm n _, ?_, ?_, ?_⟩
  · intro tc hmiss
    unfold exec_tool_call
    rw [hmiss]
  · intro tc t e hfind hraise
    simp only [exec_tool_call, hfind, hraise]
  · intro content calls tc out h0 htc hn hrun
    obtain ⟨m, rfl⟩ : ∃ m, n = m + 1 := ⟨n - 1, by omega⟩
    unfold run_agent_loop at hrun
    simp only [run_agent_loop_aux, h0] at hrun
    have hempty : calls.isEmpty = false := by
      cases calls with
      | nil => cases htc
      | cons a as => rfl
    rw [hempty] at hrun
    simp only [Bool.false_eq_true, if_false] at hrun
    obtain ⟨out1, out2⟩ := out
    refine run_agent_loop_aux_mem llm tools m _ out1 out2 _ hrun ?_
    exact List.mem_append_right _
      (List.mem_map_of_mem (fun tc => Msg.tool (exec_tool_call tools tc) tc.id) htc)

/-- Witness for `agent_loop_tool_errors_contained`: an LLM stub that keeps
requesting the unregistered `ghost` tool against the demo registry. -/
theorem agent_loop_tool_errors_contained_witness :
    (∃ out, run_agent_loop llmAlwaysCalls demoTools "s" "u" 2 = Except.ok out) ∧
    exec_tool_call demoTools ghostCall = "Error: Unknown tool " ++ sq ++ "ghost" ++ sq ∧
    exec_tool_call demoTools { name := "boom", args := "{}", id := "c2" } =
      "Error executing boom: boom failed" :=
  ⟨(agent_loop_tool_errors_contained llmAlwaysCalls demoTools "s" "u" 2
      (fun _ => ⟨("thinking", [ghostCall]), rfl⟩)).1,
    (agent_loop_tool_errors_contained llmAlwaysCalls demoTools "s" "u" 2
      (fun _ => ⟨("thinking", [ghostCall]), rfl⟩)).2.1 ghostCall rfl,
    (agent_loop_tool_errors_contained llmAlwaysCalls demoTools "s" "u" 2
      (fun _ => ⟨("thinking", [ghostCall]), rfl⟩)).2.2.1
      { name := "boom", args := "{}", id := "c2" } toolBoom "boom failed" rfl rfl⟩

/-- An always-tool-calling LLM exhausts the loop's fuel: the loop returns
the fixed incomplete-result string. -/
theorem run_agent_loop_aux_exhaust (llm : LLM) (tools : List ToolDef)
    (hllm : ∀ ms, ∃ content calls, llm ms = Except.ok (content, calls) ∧ calls ≠ []) :
    ∀ (fuel : Nat) (messages : List Msg),
      ∃ out_msgs, run_agent_loop_aux llm tools messages fuel =
        Except.ok (out_msgs, incomplete_result) := by
  intro fuel
  induction fuel with
  | zero =>
    intro messages
    exact ⟨messages, rfl⟩
  | succ fuel ih =>
    intro messages
    obtain ⟨content, calls, hms, hne⟩ := hllm messages
    have hempty : calls.isEmpty = false := by
      cases calls with
      | nil => exact absurd rfl hne
      | cons a as => rfl
    simp only [run_agent_loop_aux, hms, hempty, Bool.false_eq_true, if_false]
    exact ih _

/-- The session-threading loop under the same schedule: incomplete result
and the `finished` flag untouched. -/
theorem run_session_loop_aux_exhaust (llm : LLM) (tools : List ToolDef)
    (observer : List ToolCall → Option String)
    (hllm : ∀ ms, ∃ content calls, llm ms = Except.ok (content, calls) ∧ calls ≠ [])
    (hobs : ∀ calls, observer calls = none) :
    ∀ (fuel : Nat) (s : AgentSession),
      ∃ s2, run_session_loop_aux llm tools observer s fuel =
        Except.ok (s2, incomplete_result) ∧ s2.finished = s.finished := by
  intro fuel
  induction fuel with
  | zero =>
    intro s
    exact ⟨s, rfl, rfl⟩
  | succ fuel ih =>
    intro s
    obtain ⟨content, calls, hms, hne⟩ := hllm s.messages
    have hempty : calls.isEmpty = false := by
      cases calls with
      | nil => exact absurd rfl hne
      | cons a as => rfl
    simp only [run_session_loop_aux, hms, hempty, Bool.false_eq_true, if_false, hobs]
    exact ih _

/-- Claim C7: when every LLM response requests tool calls (no tool-free
response ever arrives) and the completion observer never fires, reaching
the iteration cap makes the loop return the fixed incomplete-result string
— both in the `run_agent_loop` of the source and in the spec's
session-threading variant, where a session that starts with
`finished = false` still has `finished = false` afterwards. -/
theorem agent_loop_exhaustion_incomplete (llm : LLM) (tools : List ToolDef)
    (observer : List ToolCall → Option String) (sp um : String) (n : Nat)
    (s : AgentSession)
    (hllm : ∀ ms, ∃ content calls, llm ms = Except.ok (content, calls) ∧ calls ≠ [])
    (hobs : ∀ calls, observer calls = none)
    (hfin : s.finished = false) :
    incomplete_result = "Agent reached maximum iterations without completing the task." ∧
    (∃ ms, run_agent_loop llm tools sp um n = Except.ok (ms, incomplete_result)) ∧
    (∃ s2, run_session_loop_aux llm tools observer s n =
      Except.ok (s2, incomplete_result) ∧ s2.finished = false) := by
  refine ⟨rfl, run_agent_loop_aux_exhaust llm tools hllm n _, ?_⟩
  obtain ⟨s2, h1, h2⟩ := run_session_loop_aux_exhaust llm tools observer hllm hobs n s
  exact ⟨s2, h1, h2.trans hfin⟩

/-- Witness for `agent_loop_exhaustion_incomplete`: the ghost-calling LLM
stub, the never-firing observer and a fresh session, at cap 3. -/
theorem agent_loop_exhaustion_incomplete_witness :
    (∃ ms, run_agent_loop llmAlwaysCalls demoTools "s" "u" 3 =
      Except.ok (ms, incomplete_result)) ∧
    (∃ s2, run_session_loop_aux llmAlwaysCalls demoTools obsNever sessionFresh 3 =
      Except.ok (s2, incomplete_result) ∧ s2.finished = false) :=
  ⟨(agent_loop_exhaustion_incomplete llmAlwaysCalls demoTools obsNever "s" "u" 3 sessionFresh
      (fun _ => ⟨"thinking", [ghostCall], rfl, by decide⟩) (fun _ => rfl) rfl).2.1,
    (agent_loop_exhaustion_incomplete llmAlwaysCalls demoTools obsNever "s" "u" 3 sessionFresh
      (fun _ => ⟨"thinking", [ghostCall], rfl, by decide⟩) (fun _ => rfl) rfl).2.2⟩

/-- Claim C8, counterexample: under the schedule whose first round decides
`wait` and whose second decides `merge`, with a budget of one fix
iteration, the source's loop consumes its single round on the `wait` and
exits unmerged — whereas the loop as the claim reads (a `wait` round does
not count against the `max_iterations` budget) would go on to round 2 and
merge. -/
theorem fix_loop_wait_consumes_budget_cex :
    run_fix_loop waitThenMerge 1 =
      { merged := false, rounds_used := 1, fix_attempts := 0 } ∧
    claim_fix_loop waitThenMerge 1 2 =
      some { merged := true, rounds_used := 2, fix_attempts := 0 } := by
  decide

/-- Each round of the fix loop consumes one unit of budget, so the
`iteration` counter never exceeds `max_iterations`. -/
theorem run_fix_loop_aux_rounds_le (d : Nat → CycleAction) :
    ∀ (remaining iteration fixes : Nat),
      (run_fix_loop_aux d remaining iteration fixes).rounds_used ≤ iteration + remaining := by
  intro remaining
  induction remaining with
  | zero =>
    intro iteration fixes
    simp [run_fix_loop_aux]
  | succ remaining ih =>
    intro iteration fixes
    unfold run_fix_loop_aux
    cases d (iteration + 1) with
    | merge => simp
    | wait => exact le_trans (ih (iteration + 1) fixes) (by omega)
    | fix_ci => exact le_trans (ih (iteration + 1) (fixes + 1)) (by omega)
    | request_fixes => exact le_trans (ih (iteration + 1) (fixes + 1)) (by omega)

/-- Claim C8 (amended): a round decided `wait` performs no fix attempt and
continues the loop with the fix-attempt counter unchanged, but it does
consume exactly one round of the `max_iterations` budget like any other
round — the loop after the `wait` round is the loop with one fewer round
remaining; in particular the loop's round counter is always bounded by
`max_iterations`. -/
theorem fix_loop_wait_round_behavior (d : Nat → CycleAction)
    (remaining iteration fixes : Nat)
    (h : d (iteration + 1) = CycleAction.wait) :
    run_fix_loop_aux d (remaining + 1) iteration fixes =
      run_fix_loop_aux d remaining (iteration + 1) fixes ∧
    (∀ max_iterations : Nat,
      (run_fix_loop d max_iterations).rounds_used ≤ max_iterations) := by
  constructor
  · simp only [run_fix_loop_aux, h]
  · intro max_iterations
    simpa [run_fix_loop] using run_fix_loop_aux_rounds_le d max_iterations 0 0

/-- Witness for `fix_loop_wait_round_behavior` on the wait-then-merge
schedule with four rounds remaining after the first. -/
theorem fix_loop_wait_round_behavior_witness :
    run_fix_loop_aux waitThenMerge 5 0 0 = run_fix_loop_aux waitThenMerge 4 1 0 ∧
    (run_fix_loop waitThenMerge 3).rounds_used ≤ 3 :=
  ⟨(fix_loop_wait_round_behavior waitThenMerge 4 0 0 (by decide)).1,
    (fix_loop_wait_round_behavior waitThenMerge 4 0 0 (by decide)).2 3⟩

end SDLC
